import Mathlib

/-!
Shallow embedding of the looptrace-napari locus-specific points reader
(`looptrace_napari/locus_specific_points_reader.py`, `geometry.py`, `types.py`)
for verification of its natural-language specification.

Python floats are modelled as rationals (`ℚ`), Python ints as `ℤ`, raised
exceptions as `Except PyErr`.  Each definition mirrors one function or class
of the source, keeping its name and its order of checks.
-/

/-- The kinds of exception the modelled code can raise, one constructor per
distinct raise site / builtin failure. -/
inductive PyErr where
  | lengthMismatch
  | intConversion
  | floatConversion
  | negativeTraceId
  | negativeTimepoint
  | negativeCoordinate
  | indexError
  | emptyMaxArg
  | zRangeError
  | assertionError
deriving DecidableEq

/-- `types.TraceIdFrom0`: a wrapped integer (validation is in `mkTraceId`). -/
structure TraceIdFrom0 where
  get : ℤ
deriving DecidableEq

/-- `TraceIdFrom0.__post_init__`: rejects a negative value. -/
def mkTraceId (n : ℤ) : Except PyErr TraceIdFrom0 :=
  if n < 0 then Except.error PyErr.negativeTraceId else Except.ok ⟨n⟩

/-- `types.TimepointFrom0`: a wrapped integer (validation is in `mkTimepoint`). -/
structure TimepointFrom0 where
  get : ℤ
deriving DecidableEq

/-- `TimepointFrom0.__post_init__`: rejects a negative value. -/
def mkTimepoint (n : ℤ) : Except PyErr TimepointFrom0 :=
  if n < 0 then Except.error PyErr.negativeTimepoint else Except.ok ⟨n⟩

/-- `geometry.ImagePoint3D`: the dataclass fields together with the invariants
its `__post_init__` chain actually establishes.  The superclass
(`ImagePoint2D.__post_init__`) proves `0 ≤ x` and `0 ≤ y`; the subclass's own
sign test re-tests `x` and `y` (its message speaks of z, but its condition does
not inspect z), so no bound on `z` is available. -/
structure ImagePoint3D where
  x : ℚ
  y : ℚ
  z : ℚ
  x_nonneg : 0 ≤ x
  y_nonneg : 0 ≤ y

/-- Constructor run of `ImagePoint3D`, in source order:
`ImagePoint2D.__post_init__` tests `x < 0 or y < 0`; then
`ImagePoint3D.__post_init__` tests — as written in the source — `x < 0 or
y < 0` again (the accompanying message claims z is being tested). -/
def mkImagePoint3D (z y x : ℚ) : Except PyErr ImagePoint3D :=
  if hxy : x < 0 ∨ y < 0 then Except.error PyErr.negativeCoordinate
  else if x < 0 ∨ y < 0 then Except.error PyErr.negativeCoordinate
  else
    Except.ok
      { x := x, y := y, z := z
        x_nonneg := le_of_not_lt fun hx => hxy (Or.inl hx)
        y_nonneg := le_of_not_lt fun hy => hxy (Or.inr hy) }

/-- `locus_specific_points_reader.PointRecord` (its `__post_init__` only
checks runtime types, which the embedding's types make vacuous). -/
structure PointRecord where
  trace_id : TraceIdFrom0
  timepoint : TimepointFrom0
  point : ImagePoint3D

/-- `PointRecord.with_new_z`: replace the point with a copy whose z is the
given integer slice index.  Rebuilding the point re-runs only the x/y sign
tests, which the carried invariants make always-succeeding. -/
def with_new_z (r : PointRecord) (z : ℤ) : PointRecord :=
  { r with
    point :=
      { x := r.point.x, y := r.point.y, z := (z : ℚ)
        x_nonneg := r.point.x_nonneg, y_nonneg := r.point.y_nonneg } }

/-- `PointRecord.with_truncated_z`: round the z position down to a slice. -/
def with_truncated_z (r : PointRecord) : PointRecord :=
  with_new_z r ⌊r.point.z⌋

/-- Python's `range(a, b)` over integers. -/
def pyRange (a b : ℤ) : List ℤ :=
  (List.range (b - a).toNat).map fun (i : ℕ) => a + (i : ℤ)

/-- `locus_specific_points_reader.expand_along_z`: truncate the record's z,
floor `z_max`, require `z_center ≤ z_max` (else `ValueError`), emit one copy
per slice `0..z_max` flagged at the centre, and `assert` the emitted count is
`1 + z_max` (an `AssertionError` when it is not). -/
def expand_along_z (r : PointRecord) (z_max : ℚ) :
    Except PyErr (List PointRecord × List Bool) :=
  let r' := with_truncated_z r
  let z_center : ℤ := ⌊r'.point.z⌋
  let zM : ℤ := ⌊z_max⌋
  if zM < z_center then Except.error PyErr.zRangeError
  else
    let predecessors := (pyRange 0 z_center).map fun i => (with_new_z r' i, false)
    let successors :=
      (pyRange (z_center + 1) (zM + 1)).map fun i => (with_new_z r' i, false)
    let pairs := predecessors ++ [(r', true)] ++ successors
    if (pairs.length : ℤ) = 1 + zM then
      Except.ok (pairs.map Prod.fst, pairs.map Prod.snd)
    else Except.error PyErr.assertionError

/-- Digit character value, as in Python's int/float literal reading. -/
def digitVal (c : Char) : ℕ := c.toNat - 48

/-- A nonempty all-digit character sequence. -/
def isDigits (cs : List Char) : Bool := !cs.isEmpty && cs.all Char.isDigit

/-- Value of a digit sequence in base 10. -/
def natFromDigits (cs : List Char) : ℕ :=
  cs.foldl (fun a c => 10 * a + digitVal c) 0

/-- Modelled core of Python's `int(str)` on plain decimal text: an optional
sign followed by digits.  (Surrounding whitespace, underscores and non-decimal
bases are outside the model.) -/
def intOfChars : List Char → Option ℤ
  | '-' :: rest => if isDigits rest then some (-(natFromDigits rest : ℤ)) else none
  | '+' :: rest => if isDigits rest then some ((natFromDigits rest : ℤ)) else none
  | cs => if isDigits cs then some ((natFromDigits cs : ℤ)) else none

/-- Unsigned part of a Python float literal: digits with an optional point,
at least one digit overall. -/
def ratOfCore (cs : List Char) : Option ℚ :=
  let ip := cs.takeWhile (fun c => c != '.')
  match cs.dropWhile (fun c => c != '.') with
  | [] => if isDigits ip then some ((natFromDigits ip : ℚ)) else none
  | _ :: fp =>
    if fp.contains '.' then none
    else if ip.all Char.isDigit && fp.all Char.isDigit
        && (!ip.isEmpty || !fp.isEmpty) then
      some ((natFromDigits ip : ℚ) + (natFromDigits fp : ℚ) / (10 : ℚ) ^ fp.length)
    else none

/-- Modelled core of Python's `float(str)` on plain decimal text: optional
sign, digits, optional decimal point.  (Exponents, specials such as `nan`,
and surrounding whitespace are outside the model.) -/
def floatOfChars : List Char → Option ℚ
  | '-' :: rest => (ratOfCore rest).map fun q => -q
  | '+' :: rest => ratOfCore rest
  | cs => ratOfCore cs

/-- `int(...)` applied to one CSV field. -/
def str_to_int (s : String) : Option ℤ := intOfChars s.toList

/-- `float(...)` applied to one CSV field. -/
def str_to_float (s : String) : Option ℚ := floatOfChars s.toList

/-- A CSV row, as in `types.CsvRow`. -/
def CsvRow : Type := List String

/-- Lift an optional conversion result into the exception monad. -/
def toExcept (e : PyErr) : Option α → Except PyErr α
  | none => Except.error e
  | some a => Except.ok a

/-- `locus_specific_points_reader.parse_simple_record`: length check first,
then the fields in source order — `int(r[0])` wrapped as a trace ID,
`int(r[1])` wrapped as a timepoint, `float` of `r[2]`, `r[3]`, `r[4]`, and
finally the `ImagePoint3D` construction.  (Indices 0–4 are in range once the
length check has passed; the `isinstance(r, list)` test is carried by the
argument type.) -/
def parse_simple_record (r : List String) (exp_num_fields : ℕ) :
    Except PyErr PointRecord := do
  if r.length ≠ exp_num_fields then throw PyErr.lengthMismatch
  let t ← toExcept PyErr.intConversion (str_to_int (r.getD 0 ""))
  let trace ← mkTraceId t
  let n ← toExcept PyErr.intConversion (str_to_int (r.getD 1 ""))
  let timepoint ← mkTimepoint n
  let z ← toExcept PyErr.floatConversion (str_to_float (r.getD 2 ""))
  let y ← toExcept PyErr.floatConversion (str_to_float (r.getD 3 ""))
  let x ← toExcept PyErr.floatConversion (str_to_float (r.getD 4 ""))
  let point ← mkImagePoint3D z y x
  pure { trace_id := trace, timepoint := timepoint, point := point }

/-- A Python list comprehension over fallible element computations: elements
are produced in order and the first raised error propagates. -/
def mapExcept (f : α → Except PyErr β) : List α → Except PyErr (List β)
  | [] => Except.ok []
  | a :: as => do
    let b ← f a
    let bs ← mapExcept f as
    pure (b :: bs)

/-- Python's `max(...)` over a materialised sequence of floats: a `ValueError`
on an empty sequence, otherwise the running maximum. -/
def pyMax : List ℚ → Except PyErr ℚ
  | [] => Except.error PyErr.emptyMaxArg
  | z :: zs => Except.ok (zs.foldl max z)

/-- `locus_specific_points_reader.parse_passed`: parse every row with five
expected fields, take the maximum z over all records, expand each record
along z, and derive the per-point sizes from the centre flags. -/
def parse_passed (rows : List (List String)) :
    Except PyErr (List PointRecord × List Bool × List ℚ) := do
  let records ← mapExcept (fun r => parse_simple_record r 5) rows
  let max_z ← pyMax (records.map fun r => r.point.z)
  let expanded ← mapExcept (fun r => expand_along_z r max_z) records
  let points := (expanded.map Prod.fst).flatten
  let center_flags := (expanded.map Prod.snd).flatten
  let sizes := center_flags.map fun is_center => if is_center then (3 / 2 : ℚ) else 1
  pure (points, center_flags, sizes)

/-- `locus_specific_points_reader.parse_failed`: for each row, look up field 5
(`row[InputFileColumn.QC.get]`, an `IndexError` when the row is shorter) and
then parse the row with six expected fields; take the maximum z; expand each
record along z, replicating that row's QC code once per produced point. -/
def parse_failed (rows : List (List String)) :
    Except PyErr (List PointRecord × List Bool × List String) := do
  let record_qc_pairs ← mapExcept (fun row => do
      let qc ← toExcept PyErr.indexError (row.get? 5)
      let record ← parse_simple_record row 6
      pure (record, qc)) rows
  let max_z ← pyMax (record_qc_pairs.map fun p => p.1.point.z)
  let expanded ← mapExcept (fun p =>
      (expand_along_z p.1 max_z).map fun e =>
        (e.1, e.2, List.replicate e.1.length p.2)) record_qc_pairs
  let points := (expanded.map fun t => t.1).flatten
  let center_flags := (expanded.map fun t => t.2.1).flatten
  let codes := (expanded.map fun t => t.2.2).flatten
  pure (points, center_flags, codes)

/-- The two QC statuses a points file can encode (spec's `QCStatus`). -/
inductive QCStatus where
  | qcPass
  | qcFail
deriving DecidableEq

/-- Python `str.lower` over the characters of a name (ASCII case folding, as
in the filenames at hand). -/
def lowerChars (cs : List Char) : List Char := cs.map Char.toLower

/-- Python `str.split(".")`: split at every dot, keeping empty segments. -/
def splitOnDot : List Char → List (List Char)
  | [] => [[]]
  | c :: rest =>
    if c = '.' then [] :: splitOnDot rest
    else
      match splitOnDot rest with
      | [] => [[c]]
      | seg :: segs => (c :: seg) :: segs

/-- `split(".")[-1]` (the split result is never empty). -/
def lastSegment (cs : List Char) : List Char := (splitOnDot cs).getLastD []

/-- Python `str.lstrip(chars)`: remove every leading character drawn from the
given set. -/
def lstripChars (strip : List Char) (cs : List Char) : List Char :=
  cs.dropWhile fun c => strip.contains c

/-- The `status_name` computed in `get_reader`:
`base.lower().split(".")[-1].lstrip("qc_").lstrip("qc")`. -/
def status_name (base : List Char) : List Char :=
  lstripChars ['q', 'c'] (lstripChars ['q', 'c', '_'] (lastSegment (lowerChars base)))

/-- Classification of a status token, shared by the code model and the
spec-worded model: `pass`/`passed` → Pass, `fail`/`failed` → Fail, anything
else → no inference. -/
def tokenClass (tok : List Char) : Option QCStatus :=
  if tok = "pass".toList ∨ tok = "passed".toList then some QCStatus.qcPass
  else if tok = "fail".toList ∨ tok = "failed".toList then some QCStatus.qcFail
  else none

/-- The QC classification `get_reader` applies to the extension-free base
name of the file. -/
def qc_status_of_base (base : List Char) : Option QCStatus :=
  tokenClass (status_name base)

/-- Python `os.path.splitext` on a bare file name: split at the last dot,
except when only dots precede it (leading dots mark a hidden file, not an
extension). -/
def splitext (cs : List Char) : List Char × List Char :=
  match (List.range cs.length).filter (fun i => cs.getD i ' ' = '.') |>.getLast? with
  | none => (cs, [])
  | some p =>
    if (cs.take p).all (fun c => c = '.') then (cs, [])
    else (cs.take p, cs.drop p)

/-- The pure file-name dispatch of `get_reader`: require a `.csv` extension,
then classify the base name; `none` models the "decline the match" outcome
(the path-likeness and file-existence checks are I/O and out of scope). -/
def get_reader_status (filename : List Char) : Option QCStatus :=
  let (base, ext) := splitext filename
  if ext = ".csv".toList then qc_status_of_base base else none

/-- Stripping an optional `"qc_"`/`"qc"` PREFIX from a token — the operation
the spec's words describe (`str.removeprefix` semantics), stated here to be
compared against the `lstrip` the source actually performs. -/
def stripQCPrefixSpec (seg : List Char) : List Char :=
  if seg.take 3 = "qc_".toList then seg.drop 3
  else if seg.take 2 = "qc".toList then seg.drop 2
  else seg

/-- The claim's wording of the base-name classification: lower-case, last
dot-segment, strip a `qc`/`qc_` prefix, then classify the token. -/
def qc_status_spec_of_base (base : List Char) : Option QCStatus :=
  tokenClass (stripQCPrefixSpec (lastSegment (lowerChars base)))

/-- A record at z = -3: constructible (and parseable from a CSV row) because
the z sign check of `ImagePoint3D` inspects x and y instead of z. -/
def recNegZ3 : PointRecord :=
  { trace_id := ⟨0⟩, timepoint := ⟨0⟩,
    point := { x := 0, y := 0, z := -3, x_nonneg := le_refl 0, y_nonneg := le_refl 0 } }

/-- A record at z = -2, as `recNegZ3`. -/
def recNegZ2 : PointRecord :=
  { trace_id := ⟨0⟩, timepoint := ⟨0⟩,
    point := { x := 0, y := 0, z := -2, x_nonneg := le_refl 0, y_nonneg := le_refl 0 } }

/-- The record of the spec's end-to-end example: trace 3, timepoint 0,
(z, y, x) = (2.7, 10.0, 5.0). -/
def recZ27 : PointRecord :=
  { trace_id := ⟨3⟩, timepoint := ⟨0⟩,
    point := { x := 5, y := 10, z := 27 / 10,
               x_nonneg := by norm_num, y_nonneg := by norm_num } }

/-- A record at z = 2. -/
def recZ2 : PointRecord :=
  { trace_id := ⟨1⟩, timepoint := ⟨0⟩,
    point := { x := 1, y := 1, z := 2,
               x_nonneg := by norm_num, y_nonneg := by norm_num } }

/-- A record at z = 0. -/
def recZ0 : PointRecord :=
  { trace_id := ⟨1⟩, timepoint := ⟨0⟩,
    point := { x := 1, y := 1, z := 0,
               x_nonneg := by norm_num, y_nonneg := by norm_num } }

/-- Splitting `List.range n` at an interior position `k`. -/
lemma range_split_at (k n : ℕ) (h : k < n) :
    List.range n =
      List.range k ++ k :: (List.range (n - (k + 1))).map (fun j => k + 1 + j) := by
  have h1 : n = (k + 1) + (n - (k + 1)) := by omega
  rw [h1, List.range_add, List.range_succ]
  simp

/-- The z slot of a truncated record holds the floor of the original z. -/
lemma with_truncated_z_point_z (r : PointRecord) :
    (with_truncated_z r).point.z = (⌊r.point.z⌋ : ℚ) := rfl

/-- Truncating twice is the same as truncating once. -/
lemma with_new_z_truncated (r : PointRecord) :
    with_new_z (with_truncated_z r) ⌊r.point.z⌋ = with_truncated_z r := rfl

/-- The three blocks built by `expand_along_z` (below-centre copies, the
centre, above-centre copies) collapse to one positional map over
`0..m`: slice `i` carries the flag `i = c`. -/
lemma expand_pairs_eq (r' : PointRecord) (c m : ℤ) (h0 : 0 ≤ c) (h1 : c ≤ m) :
    (pyRange 0 c).map (fun i => (with_new_z r' i, false))
      ++ [(with_new_z r' c, true)]
      ++ (pyRange (c + 1) (m + 1)).map (fun i => (with_new_z r' i, false)) =
    (List.range (m.toNat + 1)).map
      (fun (i : ℕ) => (with_new_z r' ((i : ℤ)), i == c.toNat)) := by
  rw [range_split_at c.toNat (m.toNat + 1) (by omega),
    List.map_append, List.map_cons, List.map_map]
  have hA : (pyRange 0 c).map (fun i => (with_new_z r' i, false))
      = (List.range c.toNat).map
          (fun (i : ℕ) => (with_new_z r' ((i : ℤ)), i == c.toNat)) := by
    simp only [pyRange, sub_zero, List.map_map]
    apply List.map_congr_left
    intro a ha
    have halt : a < c.toNat := List.mem_range.mp ha
    have hne : ¬(a = c.toNat) := by omega
    simp [Function.comp, hne]
  have hB : ((with_new_z r' c, true) : PointRecord × Bool)
      = (with_new_z r' ((c.toNat : ℤ)), (c.toNat == c.toNat)) := by
    simp [Int.toNat_of_nonneg h0]
  have hC : (pyRange (c + 1) (m + 1)).map (fun i => (with_new_z r' i, false))
      = ((List.range (m.toNat + 1 - (c.toNat + 1))).map (fun j => c.toNat + 1 + j)).map
          (fun (i : ℕ) => (with_new_z r' ((i : ℤ)), i == c.toNat)) := by
    simp only [pyRange, List.map_map]
    have hlen : (m + 1 - (c + 1)).toNat = m.toNat + 1 - (c.toNat + 1) := by omega
    rw [hlen]
    apply List.map_congr_left
    intro a _
    have hne : ¬(c.toNat + 1 + a = c.toNat) := by omega
    have hcast : ((c.toNat + 1 + a : ℕ) : ℤ) = c + 1 + a := by
      push_cast [Int.toNat_of_nonneg h0]
      ring
    simp [Function.comp, hne, hcast]
  rw [hA, hC, hB]
  simp [List.map_map]

/-- Master description of a successful z-expansion: when the truncated z is a
valid slice index (`0 ≤ ⌊z⌋`) and does not exceed the floored `z_max`, the
function succeeds and the output is, positionally for every slice `i` in
`0..⌊z_max⌋`, the record re-sliced at `i` paired with the flag `i = ⌊z⌋`. -/
lemma expand_along_z_ok (r : PointRecord) (z_max : ℚ)
    (h0 : 0 ≤ ⌊r.point.z⌋) (h1 : ⌊r.point.z⌋ ≤ ⌊z_max⌋) :
    expand_along_z r z_max =
      Except.ok
        ((List.range (⌊z_max⌋.toNat + 1)).map
            fun (i : ℕ) => with_new_z (with_truncated_z r) ((i : ℤ)),
         (List.range (⌊z_max⌋.toNat + 1)).map
            fun (i : ℕ) => i == ⌊r.point.z⌋.toNat) := by
  have hfloor : ⌊(with_truncated_z r).point.z⌋ = ⌊r.point.z⌋ := by
    rw [with_truncated_z_point_z, Int.floor_intCast]
  simp only [expand_along_z, hfloor]
  rw [if_neg (not_lt.mpr h1)]
  rw [show ([(with_truncated_z r, true)] : List (PointRecord × Bool))
      = [(with_new_z (with_truncated_z r) ⌊r.point.z⌋, true)] from by
    rw [with_new_z_truncated]]
  rw [expand_pairs_eq (with_truncated_z r) ⌊r.point.z⌋ ⌊z_max⌋ h0 h1]
  have hlen2 : (((List.range (⌊z_max⌋.toNat + 1)).map
      (fun (i : ℕ) => (with_new_z (with_truncated_z r) ((i : ℤ)),
                 i == ⌊r.point.z⌋.toNat))).length : ℤ) = 1 + ⌊z_max⌋ := by
    simp only [List.length_map, List.length_range]
    have := le_trans h0 h1
    omega
  rw [if_pos hlen2]
  simp [List.map_map, Function.comp]

@[simp] lemma bind_ok_eq (a : α) (f : α → Except PyErr β) :
    (Except.ok a : Except PyErr α) >>= f = f a := rfl

@[simp] lemma bind_error_eq (e : PyErr) (f : α → Except PyErr β) :
    (Except.error e : Except PyErr α) >>= f = Except.error e := rfl

@[simp] lemma toExcept_some (e : PyErr) (a : α) :
    toExcept e (some a) = Except.ok a := rfl

@[simp] lemma toExcept_none (e : PyErr) :
    toExcept e (none : Option α) = Except.error e := rfl

/-- When the truncated z is negative (possible only through the unvalidated z
slot) while `⌊z_max⌋` is nonnegative, the expander's final length assertion
fires: below-centre copies are an empty `range`, so the emitted count falls
short of `1 + z_max`. -/
lemma expand_along_z_assert_neg (r : PointRecord) (z_max : ℚ)
    (hneg : ⌊r.point.z⌋ < 0) (hm : 0 ≤ ⌊z_max⌋) :
    expand_along_z r z_max = Except.error PyErr.assertionError := by
  have hfl : ⌊(with_truncated_z r).point.z⌋ = ⌊r.point.z⌋ := by
    rw [with_truncated_z_point_z, Int.floor_intCast]
  simp only [expand_along_z, hfl]
  rw [if_neg (not_lt.mpr (le_trans (le_of_lt hneg) hm))]
  have hlen : ¬((((pyRange 0 ⌊r.point.z⌋).map
        (fun i => (with_new_z (with_truncated_z r) i, false))
      ++ [(with_truncated_z r, true)]
      ++ (pyRange (⌊r.point.z⌋ + 1) (⌊z_max⌋ + 1)).map
        (fun i => (with_new_z (with_truncated_z r) i, false))).length : ℤ)
      = 1 + ⌊z_max⌋) := by
    simp only [pyRange, List.length_append, List.length_map, List.length_range,
      List.length_cons, List.length_nil, sub_zero]
    omega
  rw [if_neg hlen]

/-- C1 counterexample: the claim quantifies over every `PointRecord`, but a
record whose z is negative (constructible, since the z sign check of
`ImagePoint3D` does not inspect z) satisfies the claim's hypotheses — here
`z_max = 0 ≥ ⌊-3⌋ = floor(r.z)` fails to hold, so take `z_max = 0` with
`⌊r.z⌋ = -3 ≤ 0` — yet `expand_along_z` raises its length assertion instead
of returning a sequence of `z_max + 1` pairs. -/
theorem c1_counterexample :
    ⌊recNegZ3.point.z⌋ ≤ 0 ∧ (0 : ℤ) ≤ 0 ∧
    expand_along_z recNegZ3 ((0 : ℤ) : ℚ) = Except.error PyErr.assertionError := by
  have hz : ⌊recNegZ3.point.z⌋ = -3 := by norm_num [recNegZ3]
  refine ⟨by omega, le_refl 0, ?_⟩
  apply expand_along_z_assert_neg
  · omega
  · norm_num

/-- C1 (amended: additionally require the record's truncated z to be a valid
slice index, `0 ≤ ⌊r.z⌋` — the unvalidated-z records of the counterexample
are excluded): for every such record and nonnegative integer
`z_max ≥ ⌊r.z⌋`, `expand_along_z` returns exactly `z_max + 1` pairs, ordered
ascending by z — position `i` holds z-coordinate `i` — each identical to the
input in trace ID, timepoint, y and x. -/
theorem c1_expand_shape (r : PointRecord) (zmax : ℤ)
    (hz : 0 ≤ ⌊r.point.z⌋) (_hm : 0 ≤ zmax) (hle : ⌊r.point.z⌋ ≤ zmax) :
    ∃ pts flags, expand_along_z r ((zmax : ℤ) : ℚ) = Except.ok (pts, flags) ∧
      pts.length = zmax.toNat + 1 ∧ flags.length = zmax.toNat + 1 ∧
      ∀ i (hi : i < pts.length),
        (pts.get ⟨i, hi⟩).point.z = (i : ℚ) ∧
        (pts.get ⟨i, hi⟩).trace_id = r.trace_id ∧
        (pts.get ⟨i, hi⟩).timepoint = r.timepoint ∧
        (pts.get ⟨i, hi⟩).point.y = r.point.y ∧
        (pts.get ⟨i, hi⟩).point.x = r.point.x := by
  have hfle : ⌊r.point.z⌋ ≤ ⌊((zmax : ℤ) : ℚ)⌋ := by
    rw [Int.floor_intCast]
    exact hle
  refine ⟨_, _, expand_along_z_ok r _ hz hfle, ?_, ?_, ?_⟩
  · simp [Int.floor_intCast]
  · simp [Int.floor_intCast]
  · intro i hi
    simp only [List.length_map, List.length_range, Int.floor_intCast] at hi
    simp only [List.get_eq_getElem, List.getElem_map, List.getElem_range,
      Int.floor_intCast]
    refine ⟨?_, rfl, rfl, rfl, rfl⟩
    simp [with_new_z]

/-- C1 witness: the spec's example record (z = 2.7) expanded to `z_max = 4`
yields five pairs. -/
theorem c1_expand_shape_witness :
    0 ≤ ⌊recZ27.point.z⌋ ∧ ⌊recZ27.point.z⌋ ≤ 4 ∧
    ∃ pts flags, expand_along_z recZ27 ((4 : ℤ) : ℚ) = Except.ok (pts, flags) ∧
      pts.length = 5 := by
  have hz : ⌊recZ27.point.z⌋ = 2 := by norm_num [recZ27]
  obtain ⟨pts, flags, hok, hlen, -, -⟩ :=
    c1_expand_shape recZ27 4 (by omega) (by norm_num) (by omega)
  exact ⟨by omega, by omega, pts, flags, hok, by simpa using hlen⟩

/-- C2 counterexample: for the constructible record at z = -2 and
`z_max = 1 ≥ ⌊r.z⌋`, no flag sequence is returned at all — the expander
raises its length assertion — so there is no entry flagged true at the
(negative) truncated z. -/
theorem c2_counterexample :
    ⌊recNegZ2.point.z⌋ ≤ 1 ∧
    expand_along_z recNegZ2 ((1 : ℤ) : ℚ) = Except.error PyErr.assertionError := by
  have hz : ⌊recNegZ2.point.z⌋ = -2 := by norm_num [recNegZ2]
  refine ⟨by omega, ?_⟩
  apply expand_along_z_assert_neg
  · omega
  · norm_num

/-- C2 (amended: additionally require `0 ≤ ⌊r.z⌋`, as forced by the
counterexample): for every such record and integer `z_max ≥ ⌊r.z⌋`, the flag
sequence is returned and an entry is true exactly at position `⌊r.z⌋`. -/
theorem c2_center_flag (r : PointRecord) (zmax : ℤ)
    (hz : 0 ≤ ⌊r.point.z⌋) (hle : ⌊r.point.z⌋ ≤ zmax) :
    ∃ pts flags, expand_along_z r ((zmax : ℤ) : ℚ) = Except.ok (pts, flags) ∧
      flags.length = zmax.toNat + 1 ∧ ⌊r.point.z⌋.toNat < flags.length ∧
      ∀ i (hi : i < flags.length),
        (flags.get ⟨i, hi⟩ = true ↔ i = ⌊r.point.z⌋.toNat) := by
  have hfle : ⌊r.point.z⌋ ≤ ⌊((zmax : ℤ) : ℚ)⌋ := by
    rw [Int.floor_intCast]
    exact hle
  refine ⟨_, _, expand_along_z_ok r _ hz hfle, ?_, ?_, ?_⟩
  · simp [Int.floor_intCast]
  · simp only [List.length_map, List.length_range, Int.floor_intCast]
    omega
  · intro i hi
    simp only [List.length_map, List.length_range, Int.floor_intCast] at hi
    simp only [List.get_eq_getElem, List.getElem_map, List.getElem_range]
    exact beq_iff_eq ..

/-- C2 witness: for the example record (z = 2.7) and `z_max = 4`, the flag
at position 2 is true and the flag at position 3 is false. -/
theorem c2_center_flag_witness :
    0 ≤ ⌊recZ27.point.z⌋ ∧ ⌊recZ27.point.z⌋ ≤ 4 ∧
    ∃ pts flags, expand_along_z recZ27 ((4 : ℤ) : ℚ) = Except.ok (pts, flags) ∧
      ∃ h2 : 2 < flags.length, ∃ h3 : 3 < flags.length,
        flags.get ⟨2, h2⟩ = true ∧ flags.get ⟨3, h3⟩ = false := by
  have hz : ⌊recZ27.point.z⌋ = 2 := by norm_num [recZ27]
  obtain ⟨pts, flags, hok, hlen, -, hiff⟩ :=
    c2_center_flag recZ27 4 (by omega) (by omega)
  have h2 : 2 < flags.length := by omega
  have h3 : 3 < flags.length := by omega
  refine ⟨by omega, by omega, pts, flags, hok, h2, h3, ?_, ?_⟩
  · exact (hiff 2 h2).mpr (by omega)
  · have h := hiff 3 h3
    rw [hz] at h
    cases hb : flags.get ⟨3, h3⟩
    · rfl
    · exact absurd (h.mp hb) (by decide)

/-- C3: whenever `z_max < ⌊r.z⌋`, `expand_along_z` raises the
range-consistency error (the centre slice lies above the stated maximum) and
produces no output sequence. -/
theorem c3_expand_range_error (r : PointRecord) (z_max : ℚ)
    (h : z_max < (⌊r.point.z⌋ : ℚ)) :
    expand_along_z r z_max = Except.error PyErr.zRangeError := by
  have hfl : ⌊(with_truncated_z r).point.z⌋ = ⌊r.point.z⌋ := by
    rw [with_truncated_z_point_z, Int.floor_intCast]
  have hlt : ⌊z_max⌋ < ⌊r.point.z⌋ := Int.floor_lt.mpr h
  simp only [expand_along_z, hfl]
  rw [if_pos hlt]

/-- C3 witness: the example record (z = 2.7, centre slice 2) with
`z_max = 1`. -/
theorem c3_expand_range_error_witness :
    (1 : ℚ) < (⌊recZ27.point.z⌋ : ℚ) ∧
    expand_along_z recZ27 1 = Except.error PyErr.zRangeError := by
  have hz : ⌊recZ27.point.z⌋ = 2 := by norm_num [recZ27]
  have h : (1 : ℚ) < (⌊recZ27.point.z⌋ : ℚ) := by
    rw [hz]
    norm_num
  exact ⟨h, c3_expand_range_error recZ27 1 h⟩

/-- C8 counterexample: for the record at z = 2 and `z_max = ⌊z⌋ = 2`, the
output has three entries, not one. -/
theorem c8_counterexample :
    ⌊recZ2.point.z⌋ = 2 ∧
    ∃ pts flags, expand_along_z recZ2 ((2 : ℤ) : ℚ) = Except.ok (pts, flags) ∧
      pts.length = 3 ∧ pts.length ≠ 1 := by
  have hz : ⌊recZ2.point.z⌋ = 2 := by norm_num [recZ2]
  have hok := expand_along_z_ok recZ2 ((2 : ℤ) : ℚ) (by omega)
    (by rw [Int.floor_intCast]; omega)
  refine ⟨hz, _, _, hok, ?_, ?_⟩
  · simp [Int.floor_intCast]
  · simp [Int.floor_intCast]

/-- C8 (amended, as forced by the counterexample: the output of
`expand_along_z` at `z_max = ⌊r.z⌋ ≥ 0` has `z_max + 1` entries — the last
one, at the centre slice, flagged true; it is a single flagged-true entry
exactly in the `z_max = ⌊r.z⌋ = 0` edge case). -/
theorem c8_center_at_top (r : PointRecord) (zmax : ℤ)
    (hm : 0 ≤ zmax) (hz : ⌊r.point.z⌋ = zmax) :
    expand_along_z r ((zmax : ℤ) : ℚ) =
      Except.ok
        ((List.range (zmax.toNat + 1)).map
            fun (i : ℕ) => with_new_z (with_truncated_z r) ((i : ℤ)),
         (List.range (zmax.toNat + 1)).map
            fun (i : ℕ) => i == zmax.toNat) ∧
    (zmax = 0 →
      expand_along_z r ((zmax : ℤ) : ℚ) =
        Except.ok ([with_truncated_z r], [true])) := by
  have hok := expand_along_z_ok r ((zmax : ℤ) : ℚ) (by omega)
    (by rw [Int.floor_intCast]; omega)
  rw [Int.floor_intCast, hz] at hok
  refine ⟨hok, ?_⟩
  intro h0
  subst h0
  have hz0 : (0 : ℤ) = ⌊r.point.z⌋ := by omega
  have hcenter : with_new_z (with_truncated_z r) (0 : ℤ) = with_truncated_z r := by
    rw [hz0, with_new_z_truncated]
  have hr1 : List.range 1 = [0] := rfl
  simpa [hr1, hcenter] using hok

/-- C8 witness: the z = 0 record at `z_max = 0` yields a single entry,
flagged true. -/
theorem c8_center_at_top_witness :
    ⌊recZ0.point.z⌋ = 0 ∧
    expand_along_z recZ0 ((0 : ℤ) : ℚ) =
      Except.ok ([with_truncated_z recZ0], [true]) := by
  have hz : ⌊recZ0.point.z⌋ = 0 := by norm_num [recZ0]
  exact ⟨hz, (c8_center_at_top recZ0 0 (le_refl 0) hz).2 rfl⟩

/-- C9 bug exhibit: a 3D point with negative z is constructed successfully —
the z sign test of `ImagePoint3D.__post_init__` re-tests x and y, never z —
while a negative x or y is duly rejected. -/
theorem c9_negative_z_accepted :
    (∃ p, mkImagePoint3D (-1) 0 0 = Except.ok p ∧ p.z = -1 ∧ p.z < 0) ∧
    mkImagePoint3D 0 (-1) 0 = Except.error PyErr.negativeCoordinate ∧
    mkImagePoint3D 0 0 (-1) = Except.error PyErr.negativeCoordinate := by
  refine ⟨⟨{ x := 0, y := 0, z := -1,
             x_nonneg := le_refl 0, y_nonneg := le_refl 0 }, ?_, rfl, by norm_num⟩,
          ?_, ?_⟩
  · simp only [mkImagePoint3D]
    rw [dif_neg (by norm_num), if_neg (by norm_num)]
  · simp only [mkImagePoint3D]
    rw [dif_pos (Or.inr (by norm_num))]
  · simp only [mkImagePoint3D]
    rw [dif_pos (Or.inl (by norm_num))]

/-- C10: on an empty row list both `parse_passed` and `parse_failed` raise
Python's empty-`max` error rather than returning an empty point sequence. -/
theorem c10_empty_rows_error :
    parse_passed [] = Except.error PyErr.emptyMaxArg ∧
    parse_failed [] = Except.error PyErr.emptyMaxArg :=
  ⟨rfl, rfl⟩

/-- C6 counterexample: the claim describes the token normalisation as
stripping a `qc`/`qc_` PREFIX, under which `"qqpass"` is left unchanged and
must be declined; the source's `lstrip` removes all leading characters from
the set {q, c, _}, so the code resolves `"qqpass.csv"` to Pass. -/
theorem c6_counterexample :
    qc_status_of_base ("qqpass".toList) = some QCStatus.qcPass ∧
    qc_status_spec_of_base ("qqpass".toList) = none ∧
    get_reader_status ("qqpass.csv".toList) = some QCStatus.qcPass := by
  refine ⟨by decide, by decide, by decide⟩

/-- C6 (amended: "stripping" is Python `str.lstrip` — removal of every
leading character drawn from {q, c, _} — not prefix removal): the QC
classification is a pure total function of the computed token; the claim's
three example file names all resolve to Pass and an unrecognised token is a
declined match (`none`), never an error. -/
theorem c6_dispatch :
    (∀ b : List Char,
        status_name b = "pass".toList ∨ status_name b = "passed".toList →
        qc_status_of_base b = some QCStatus.qcPass) ∧
    (∀ b : List Char,
        status_name b = "fail".toList ∨ status_name b = "failed".toList →
        qc_status_of_base b = some QCStatus.qcFail) ∧
    (∀ b : List Char,
        ¬(status_name b = "pass".toList ∨ status_name b = "passed".toList) →
        ¬(status_name b = "fail".toList ∨ status_name b = "failed".toList) →
        qc_status_of_base b = none) ∧
    get_reader_status ("QC_PASS.csv".toList) = some QCStatus.qcPass ∧
    get_reader_status ("qcpass.csv".toList) = some QCStatus.qcPass ∧
    get_reader_status ("Qc_Passed.csv".toList) = some QCStatus.qcPass ∧
    get_reader_status ("sample.unknown.csv".toList) = none := by
  refine ⟨?_, ?_, ?_, by decide, by decide, by decide, by decide⟩
  · intro b h
    simp only [qc_status_of_base, tokenClass]
    rw [if_pos h]
  · intro b h
    rcases h with h | h <;> simp [qc_status_of_base, tokenClass, h]
  · intro b hp hf
    simp only [qc_status_of_base, tokenClass]
    rw [if_neg hp, if_neg hf]

/-- C6 witness: a concrete application of the dispatch characterisation —
`sample.qc_pass` has token `pass`, hence Pass. -/
theorem c6_dispatch_witness :
    qc_status_of_base ("sample.qc_pass".toList) = some QCStatus.qcPass :=
  c6_dispatch.1 ("sample.qc_pass".toList) (Or.inl (by decide))

lemma mkTraceId_ok (t : ℤ) (h : 0 ≤ t) : mkTraceId t = Except.ok ⟨t⟩ := by
  unfold mkTraceId
  rw [if_neg (not_lt.mpr h)]

lemma mkTimepoint_ok (n : ℤ) (h : 0 ≤ n) : mkTimepoint n = Except.ok ⟨n⟩ := by
  unfold mkTimepoint
  rw [if_neg (not_lt.mpr h)]

lemma mkImagePoint3D_ok (z y x : ℚ) (hy : 0 ≤ y) (hx : 0 ≤ x) :
    mkImagePoint3D z y x =
      Except.ok { x := x, y := y, z := z, x_nonneg := hx, y_nonneg := hy } := by
  have hc : ¬(x < 0 ∨ y < 0) := not_or.mpr ⟨not_lt.mpr hx, not_lt.mpr hy⟩
  unfold mkImagePoint3D
  rw [dif_neg hc, if_neg hc]

/-- C4 counterexample: the row `["-1","0","1.0","1.0","1.0"]` is well-formed
in the claim's sense (field 0 and 1 integer-like, fields 2-4 float-like) but
no PointRecord is returned: the trace-ID wrapper rejects the negative
parse. -/
theorem c4_counterexample :
    str_to_int "-1" = some (-1) ∧ str_to_int "0" = some 0 ∧
    str_to_float "1.0" = some 1 ∧
    parse_simple_record ["-1", "0", "1.0", "1.0", "1.0"] 5 =
      Except.error PyErr.negativeTraceId := by
  refine ⟨rfl, rfl, ?_, rfl⟩
  have h : str_to_float "1.0" = some ((1 : ℚ) + (0 : ℚ) / 10 ^ 1) := rfl
  rw [h]
  norm_num

/-- C4 (amended: the parsed values must additionally satisfy the
constructors' range checks — nonnegative trace ID and timepoint, nonnegative
y and x; z is NOT constrained, its sign check being absent, see C9): a
5-field row whose fields parse accordingly yields exactly the PointRecord of
the parsed values (round-trip). -/
theorem c4_round_trip (row : List String) (t n : ℤ) (z y x : ℚ)
    (hlen : row.length = 5)
    (ht : str_to_int (row.getD 0 "") = some t) (ht0 : 0 ≤ t)
    (hn : str_to_int (row.getD 1 "") = some n) (hn0 : 0 ≤ n)
    (hz : str_to_float (row.getD 2 "") = some z)
    (hy : str_to_float (row.getD 3 "") = some y) (hy0 : 0 ≤ y)
    (hx : str_to_float (row.getD 4 "") = some x) (hx0 : 0 ≤ x) :
    parse_simple_record row 5 =
      Except.ok { trace_id := ⟨t⟩, timepoint := ⟨n⟩,
                  point := { x := x, y := y, z := z,
                             x_nonneg := hx0, y_nonneg := hy0 } } := by
  simp only [parse_simple_record, hlen, ht, hn, hz, hy, hx, toExcept_some,
    bind_ok_eq, mkTraceId_ok t ht0, mkTimepoint_ok n hn0,
    mkImagePoint3D_ok z y x hy0 hx0, ne_eq]
  rfl

/-- C4 witness: the spec's example row round-trips to
(trace 3, timepoint 0, z 2.7, y 10, x 5). -/
theorem c4_round_trip_witness :
    parse_simple_record ["3", "0", "2.7", "10.0", "5.0"] 5 =
      Except.ok { trace_id := ⟨3⟩, timepoint := ⟨0⟩,
                  point := { x := 5, y := 10, z := 27 / 10,
                             x_nonneg := by norm_num, y_nonneg := by norm_num } } := by
  have hz : str_to_float "2.7" = some (27 / 10 : ℚ) := by
    have h : str_to_float "2.7" = some ((2 : ℚ) + (7 : ℚ) / 10 ^ 1) := rfl
    rw [h]
    norm_num
  have hy : str_to_float "10.0" = some (10 : ℚ) := by
    have h : str_to_float "10.0" = some ((10 : ℚ) + (0 : ℚ) / 10 ^ 1) := rfl
    rw [h]
    norm_num
  have hx : str_to_float "5.0" = some (5 : ℚ) := by
    have h : str_to_float "5.0" = some ((5 : ℚ) + (0 : ℚ) / 10 ^ 1) := rfl
    rw [h]
    norm_num
  exact c4_round_trip ["3", "0", "2.7", "10.0", "5.0"] 3 0 (27 / 10) 10 5
    rfl rfl (by norm_num) rfl (by norm_num) hz hy (by norm_num) hx (by norm_num)

@[simp] lemma throw_eq_error (e : PyErr) :
    (throw e : Except PyErr α) = Except.error e := rfl

@[simp] lemma except_map_error (f : α → β) (e : PyErr) :
    Except.map f (Except.error e : Except PyErr α) = Except.error e := rfl

@[simp] lemma except_map_ok (f : α → β) (a : α) :
    Except.map f (Except.ok a : Except PyErr α) = Except.ok (f a) := rfl

/-- C5 counterexample: a 3-field row on the fail-row path raises the
`IndexError` of the `row[5]` QC lookup, not the length-mismatch error the
claim names (the QC-code access precedes the length check). -/
theorem c5_counterexample :
    parse_failed [["a", "b", "c"]] = Except.error PyErr.indexError ∧
    PyErr.indexError ≠ PyErr.lengthMismatch :=
  ⟨rfl, by decide⟩

/-- C5 (amended: on the fail path a row shorter than six fields fails with
the index error of the `row[5]` QC-code lookup, which precedes the length
check; every other wrong-length case fails with the length-mismatch error;
in all cases parsing fails and no partial record is returned). -/
theorem c5_wrong_length_fails (row : List String) :
    (row.length ≠ 5 → parse_simple_record row 5 = Except.error PyErr.lengthMismatch) ∧
    (row.length ≠ 5 → parse_passed [row] = Except.error PyErr.lengthMismatch) ∧
    (row.length ≠ 6 → parse_failed [row] =
      Except.error (if row.length < 6 then PyErr.indexError else PyErr.lengthMismatch)) := by
  have hrec : ∀ k, row.length ≠ k →
      parse_simple_record row k = Except.error PyErr.lengthMismatch := by
    intro k h
    simp [parse_simple_record, h]
  refine ⟨hrec 5, ?_, ?_⟩
  · intro h
    simp [parse_passed, mapExcept, hrec 5 h]
  · intro h
    by_cases hlt : row.length < 6
    · have h5 : row[5]? = none := List.getElem?_eq_none (by omega)
      rw [if_pos hlt]
      simp [parse_failed, mapExcept, h5]
    · have h6 : 5 < row.length := by omega
      have h5 : row[5]? = some (row.get ⟨5, h6⟩) := by
        rw [List.getElem?_eq_getElem h6]
        simp
      rw [if_neg hlt]
      simp [parse_failed, mapExcept, h5, hrec 6 h]

/-- C5 witness: the 1-field row `["a"]` fails on every path — with the
length-mismatch error through the 5-field parser and the pass path, and with
the index error on the fail path. -/
theorem c5_wrong_length_fails_witness :
    parse_simple_record ["a"] 5 = Except.error PyErr.lengthMismatch ∧
    parse_passed [["a"]] = Except.error PyErr.lengthMismatch ∧
    parse_failed [["a"]] = Except.error PyErr.indexError := by
  have h := c5_wrong_length_fails ["a"]
  refine ⟨h.1 (by decide), h.2.1 (by decide), ?_⟩
  have h3 := h.2.2 (by decide)
  simpa using h3

/-- A successful z-expansion always contains at least the centre copy. -/
lemma expand_along_z_pos (r : PointRecord) (z_max : ℚ)
    (pts : List PointRecord) (flags : List Bool)
    (h : expand_along_z r z_max = Except.ok (pts, flags)) : 0 < pts.length := by
  simp only [expand_along_z] at h
  split at h
  · simp at h
  · split at h
    · rw [Except.ok.injEq] at h
      obtain ⟨h1, -⟩ := Prod.mk.injEq .. |>.mp h
      rw [← h1]
      simp
    · simp at h

/-- C7: whenever the fail-path parse of a single six-field row succeeds, the
trailing QC-reason field is attached to every z-expanded copy of the row's
point — the failure-codes list is that reason replicated once per produced
point, positionally aligned with the point sequence. -/
theorem c7_fail_codes (row : List String) (pts : List PointRecord)
    (flags : List Bool) (codes : List String)
    (hok : parse_failed [row] = Except.ok (pts, flags, codes)) :
    codes = List.replicate pts.length (row.getD 5 "") ∧
    codes.length = pts.length ∧ 0 < pts.length := by
  cases h5 : row[5]? with
  | none =>
    simp [parse_failed, mapExcept, h5] at hok
  | some qc =>
    cases hrec : parse_simple_record row 6 with
    | error e =>
      simp [parse_failed, mapExcept, h5, hrec] at hok
    | ok record =>
      cases hexp : expand_along_z record record.point.z with
      | error e =>
        simp [parse_failed, mapExcept, h5, hrec, pyMax, hexp] at hok
      | ok pr =>
        obtain ⟨p1, p2⟩ := pr
        have hpos := expand_along_z_pos record record.point.z p1 p2 hexp
        have hget : row.getD 5 "" = qc := by
          simp [List.getD_eq_getElem?_getD, h5]
        simp [parse_failed, mapExcept, h5, hrec, pyMax, hexp] at hok
        obtain ⟨h1, h2, h3⟩ := hok
        rw [← h1, ← h3, hget]
        exact ⟨rfl, by simp, hpos⟩

/-- C7 witness: the fail row `["3","0","2","10","5","lowSNR"]` (centre slice
2) yields three expanded points, each carrying the code `"lowSNR"`. -/
theorem c7_fail_codes_witness :
    ∃ pts flags codes,
      parse_failed [["3", "0", "2", "10", "5", "lowSNR"]] =
        Except.ok (pts, flags, codes) ∧
      codes = List.replicate pts.length "lowSNR" ∧ 0 < pts.length := by
  have ha : str_to_int "3" = some 3 := rfl
  have hb : str_to_int "0" = some 0 := rfl
  have hc : str_to_float "2" = some 2 := rfl
  have hd : str_to_float "10" = some 10 := rfl
  have he : str_to_float "5" = some 5 := rfl
  have hrec : parse_simple_record ["3", "0", "2", "10", "5", "lowSNR"] 6 =
      Except.ok { trace_id := ⟨3⟩, timepoint := ⟨0⟩,
                  point := { x := 5, y := 10, z := 2,
                             x_nonneg := by norm_num, y_nonneg := by norm_num } } := by
    simp [parse_simple_record, ha, hb, hc, hd, he,
      mkTraceId_ok 3 (by norm_num), mkTimepoint_ok 0 (le_refl 0),
      mkImagePoint3D_ok 2 10 5 (by norm_num) (by norm_num)]
  have h5q : (["3", "0", "2", "10", "5", "lowSNR"] : List String)[5]? =
      some "lowSNR" := rfl
  have hexp := expand_along_z_ok
    { trace_id := ⟨3⟩, timepoint := ⟨0⟩,
      point := { x := 5, y := 10, z := 2,
                 x_nonneg := by norm_num, y_nonneg := by norm_num } }
    2 (by norm_num) (by norm_num)
  have hout : ∃ out, parse_failed [["3", "0", "2", "10", "5", "lowSNR"]] =
      Except.ok out := by
    cases hv : parse_failed [["3", "0", "2", "10", "5", "lowSNR"]] with
    | error e =>
      simp [parse_failed, mapExcept, h5q, hrec, pyMax, hexp] at hv
    | ok out => exact ⟨out, rfl⟩
  obtain ⟨⟨pts, flags, codes⟩, hok⟩ := hout
  obtain ⟨h1, -, h3⟩ := c7_fail_codes _ pts flags codes hok
  exact ⟨pts, flags, codes, hok, h1, h3⟩
